import Mathlib

/-!
Shallow embedding of the EconCell AI orchestration core
(src/ai/task_queue.py, memory_manager.py, load_balancer.py,
model_orchestrator.py, ai_coordinator.py) and verification of the
frozen specification claims about it.

Python mutable objects shared between the task dictionary and the
priority-queue list are modelled by storing task ids in the heap and a
single id-to-task association list as the source of truth; `time.time()`
is passed explicitly as a `now` argument; Python exceptions are modelled
as `none`/`false` results paired with an unchanged state.
-/

namespace EfdataSpec

/-- Association-list lookup (Python `dict.get`). -/
def lookupA {β : Type} : List (String × β) → String → Option β
  | [], _ => none
  | (k, v) :: rest, key => if k = key then some v else lookupA rest key

/-- Association-list store (Python `dict[key] = value`): replaces the value
of an existing key in place, otherwise appends (dict insertion order). -/
def setA {β : Type} : List (String × β) → String → β → List (String × β)
  | [], key, v => [(key, v)]
  | (k, w) :: rest, key, v =>
    if k = key then (k, v) :: rest else (k, w) :: setA rest key v

/-- Association-list delete (Python `del dict[key]`): removes the first
binding of the key. -/
def eraseA {β : Type} : List (String × β) → String → List (String × β)
  | [], _ => []
  | (k, w) :: rest, key => if k = key then rest else (k, w) :: eraseA rest key

/-- Sum of the values of an association list. -/
def sumVals (l : List (String × Int)) : Int := (l.map (·.2)).sum

/-! ### task_queue.py data model -/

/-- Embeds `TaskType` enum from task_queue.py. -/
inductive TaskType where
  | hypothesis_generation | data_analysis | verification | policy_analysis
  | forecasting | research_synthesis | report_generation | data_enrichment
  | anomaly_detection | monte_carlo | cellular_automata
  deriving DecidableEq, Repr

/-- Embeds `TaskPriority` enum from task_queue.py (lower value = more urgent). -/
inductive TaskPriority where
  | critical | high | normal | low | batch
  deriving DecidableEq, Repr

/-- Numeric `.value` of a `TaskPriority`. -/
def TaskPriority.val : TaskPriority → Nat
  | .critical => 0
  | .high => 1
  | .normal => 2
  | .low => 3
  | .batch => 4

/-- Embeds `TaskStatus` enum from task_queue.py. -/
inductive TaskStatus where
  | pending | queued | assigned | running | completed | failed | cancelled | timeout
  deriving DecidableEq, Repr

/-- The `Task` dataclass (fields relevant to the claims; the payload
`content`/`context` strings and the completion callback are omitted). -/
structure Task where
  id : String
  task_type : TaskType
  priority : TaskPriority
  preferred_model : Option String
  max_retries : Nat
  timeout_seconds : Nat
  created_at : Nat
  assigned_at : Option Nat
  started_at : Option Nat
  completed_at : Option Nat
  assigned_model : Option String
  status : TaskStatus
  result : Option String
  error : Option String
  retry_count : Nat
  deriving DecidableEq, Repr

/-- Embeds `Task.__lt__`: priority value first, creation time as tie-break. -/
def Task.ltb (a b : Task) : Bool :=
  if a.priority.val = b.priority.val then a.created_at < b.created_at
  else a.priority.val < b.priority.val

/-- Task id map (Python `self.tasks`); the single source of truth for the
mutable task objects that Python shares by reference. -/
abbrev TaskMap := List (String × Task)

/-- Embeds `Task.__lt__` lifted to the ids stored in the heap, dereferencing the
current task map exactly as Python's heap compares live objects. -/
def taskLt (m : TaskMap) (a b : String) : Bool :=
  match lookupA m a, lookupA m b with
  | some ta, some tb => Task.ltb ta tb
  | _, _ => false

/-- Embeds `heap[i]` with a default for out-of-range reads (never hit on the
index ranges heapq uses). -/
def lget (heap : List String) (i : Nat) : String := heap.getD i ""

/-- Embeds `heapq._siftdown(heap, startpos, pos)` with `newitem` already read out;
`fuel` bounds the loop (any value ≥ the initial `pos` is exact). -/
def siftdownGo (lt : String → String → Bool) (startpos : Nat) (newitem : String) :
    Nat → List String → Nat → List String
  | 0, heap, pos => heap.set pos newitem
  | fuel + 1, heap, pos =>
    if startpos < pos then
      let parentpos := (pos - 1) / 2
      let parent := lget heap parentpos
      if lt newitem parent then
        siftdownGo lt startpos newitem fuel (heap.set pos parent) parentpos
      else heap.set pos newitem
    else heap.set pos newitem

/-- Embeds `heapq._siftup(heap, pos)` main loop: walks `pos` down along the
smaller-child path, returns the heap and the final position. -/
def siftupGo (lt : String → String → Bool) (endpos : Nat) (newitem : String) :
    Nat → List String → Nat → List String × Nat
  | 0, heap, pos => (heap, pos)
  | fuel + 1, heap, pos =>
    let childpos := 2 * pos + 1
    if childpos < endpos then
      let rightpos := childpos + 1
      if rightpos < endpos ∧ lt (lget heap childpos) (lget heap rightpos) = false then
        siftupGo lt endpos newitem fuel (heap.set pos (lget heap rightpos)) rightpos
      else
        siftupGo lt endpos newitem fuel (heap.set pos (lget heap childpos)) childpos
    else (heap.set pos newitem, pos)

/-- Embeds `heapq._siftup(heap, pos)`. -/
def siftup (lt : String → String → Bool) (heap : List String) (pos : Nat) : List String :=
  let endpos := heap.length
  let newitem := lget heap pos
  let hp := siftupGo lt endpos newitem endpos heap pos
  siftdownGo lt pos newitem hp.1.length hp.1 hp.2

/-- Embeds `heapq.heappush(heap, item)`. -/
def heappushL (lt : String → String → Bool) (heap : List String) (item : String) :
    List String :=
  let h := heap ++ [item]
  siftdownGo lt 0 item h.length h (h.length - 1)

/-- Embeds `for i in reversed(range(n // 2)): _siftup(x, i)`. -/
def heapifyGo (lt : String → String → Bool) : List String → Nat → List String
  | heap, 0 => heap
  | heap, i + 1 => heapifyGo lt (siftup lt heap i) i

/-- Embeds `heapq.heapify(x)`. -/
def heapifyL (lt : String → String → Bool) (heap : List String) : List String :=
  heapifyGo lt heap (heap.length / 2)

/-- Embeds `TaskQueue` state: the task dictionary, the heap (as task ids), and
the running/completed/failed bookkeeping dictionaries (as id lists). -/
structure QueueState where
  max_queue_size : Nat
  tasks : TaskMap
  priority_queue : List String
  running_tasks : List String
  completed_tasks : List String
  failed_tasks : List String
  deriving DecidableEq, Repr

/-- A fresh `TaskQueue(max_queue_size)`. -/
def initialQueue (max_queue_size : Nat) : QueueState :=
  { max_queue_size := max_queue_size, tasks := [], priority_queue := []
    running_tasks := [], completed_tasks := [], failed_tasks := [] }

/-- Embeds `dict[id] = obj` on an id list used as an id-keyed dict of shared
objects: appends the id if absent. -/
def addId (l : List String) (id : String) : List String :=
  if id ∈ l then l else l ++ [id]

/-- Embeds `TaskQueue.submit_task`: rejects when `len(self.tasks) >= max_queue_size`
(Python raises; modelled as `none` with the state unchanged), otherwise
stores the new task (dataclass defaults: `max_retries=3`, `retry_count=0`,
status PENDING), pushes it onto the heap and marks it QUEUED. The fresh
uuid and `time.time()` are the `id`/`now` arguments. -/
def submitTask (s : QueueState) (id : String) (now : Nat) (task_type : TaskType)
    (priority : TaskPriority) (preferred_model : Option String)
    (timeout_seconds : Nat) : Option String × QueueState :=
  if s.max_queue_size ≤ s.tasks.length then (none, s)
  else
    let task : Task :=
      { id := id, task_type := task_type, priority := priority
        preferred_model := preferred_model, max_retries := 3
        timeout_seconds := timeout_seconds, created_at := now
        assigned_at := none, started_at := none, completed_at := none
        assigned_model := none, status := TaskStatus.pending
        result := none, error := none, retry_count := 0 }
    let tasks1 := setA s.tasks id task
    let pq1 := heappushL (taskLt tasks1) s.priority_queue id
    let tasks2 := setA tasks1 id { task with status := TaskStatus.queued }
    (some id, { s with tasks := tasks2, priority_queue := pq1 })

/-- Eligibility test of one heap entry inside `TaskQueue.get_next_task`'s
scan: status must be QUEUED, the task type must be in the supported list
(a falsy `None`/empty list disables the filter), and a truthy
`preferred_model` must equal the requesting model's name. -/
def eligibleFor (m : TaskMap) (model_name : String)
    (supported_task_types : Option (List TaskType)) (tid : String) : Bool :=
  match lookupA m tid with
  | none => false
  | some t =>
    t.status = TaskStatus.queued &&
    (match supported_task_types with
     | none => true
     | some tys => if tys = [] then true else tys.contains t.task_type) &&
    (match t.preferred_model with
     | none => true
     | some pm => if pm = "" then true else pm = model_name)

/-- The scan of `get_next_task`: enumerate the heap's backing list in index
order, filter by eligibility, and take the first hit (`suitable_tasks[0]`). -/
def getNextPick (s : QueueState) (model_name : String)
    (supported_task_types : Option (List TaskType)) : Option (Nat × String) :=
  if s.priority_queue = [] then none
  else
    ((s.priority_queue.enum).filter
      (fun p => eligibleFor s.tasks model_name supported_task_types p.2)).head?

/-- Embeds `TaskQueue.get_next_task`: picks via the scan, removes that index from
the heap, re-heapifies, and marks the task ASSIGNED with `assigned_at`
stamped and the model recorded. -/
def getNextTask (s : QueueState) (model_name : String)
    (supported_task_types : Option (List TaskType)) (now : Nat) :
    Option Task × QueueState :=
  match getNextPick s model_name supported_task_types with
  | none => (none, s)
  | some (i, tid) =>
    match lookupA s.tasks tid with
    | none => (none, s)
    | some t =>
      let pq1 := heapifyL (taskLt s.tasks) (s.priority_queue.eraseIdx i)
      let t2 := { t with status := TaskStatus.assigned, assigned_at := some now
                         assigned_model := some model_name }
      (some t2, { s with tasks := setA s.tasks tid t2, priority_queue := pq1
                         running_tasks := addId s.running_tasks tid })

/-- Embeds `TaskQueue.complete_task`: valid only from ASSIGNED/RUNNING; sets
COMPLETED, stores the result, moves the task from running to completed. -/
def completeTask (s : QueueState) (task_id : String) (result : String)
    (now : Nat) : Bool × QueueState :=
  match lookupA s.tasks task_id with
  | none => (false, s)
  | some t =>
    if t.status = TaskStatus.assigned ∨ t.status = TaskStatus.running then
      let t2 := { t with status := TaskStatus.completed, completed_at := some now
                         result := some result }
      (true, { s with tasks := setA s.tasks task_id t2
                      running_tasks := s.running_tasks.erase task_id
                      completed_tasks := addId s.completed_tasks task_id })
    else (false, s)

/-- Embeds `TaskQueue.fail_task`: records the error, increments `retry_count`,
then either re-queues with a backoff-delayed (future-dated) creation time
when `retry` is set, `retry_count <= max_retries` and the task was
ASSIGNED/RUNNING, or marks the task FAILED. -/
def failTask (s : QueueState) (task_id : String) (error : String)
    (retry : Bool) (now : Nat) : Bool × QueueState :=
  match lookupA s.tasks task_id with
  | none => (false, s)
  | some t =>
    let t1 := { t with error := some error, retry_count := t.retry_count + 1 }
    if retry = true ∧ t1.retry_count ≤ t1.max_retries ∧
        (t1.status = TaskStatus.assigned ∨ t1.status = TaskStatus.running) then
      let delay := min 60 (2 ^ t1.retry_count)
      let t2 := { t1 with status := TaskStatus.queued, assigned_at := none
                          started_at := none, assigned_model := none
                          created_at := now + delay }
      let tasks2 := setA s.tasks task_id t2
      (true, { s with tasks := tasks2
                      priority_queue := heappushL (taskLt tasks2) s.priority_queue task_id
                      running_tasks := s.running_tasks.erase task_id })
    else
      let t2 := { t1 with status := TaskStatus.failed, completed_at := some now }
      (true, { s with tasks := setA s.tasks task_id t2
                      running_tasks := s.running_tasks.erase task_id
                      failed_tasks := addId s.failed_tasks task_id })

/-- Embeds `TaskQueue.cancel_task`: refuses on terminal states, else sets
CANCELLED, removes the task from the heap (by dataclass equality, as
`list.remove` does) re-heapifying, and drops it from the running set. -/
def cancelTask (s : QueueState) (task_id : String) (now : Nat) :
    Bool × QueueState :=
  match lookupA s.tasks task_id with
  | none => (false, s)
  | some t =>
    if t.status = TaskStatus.completed ∨ t.status = TaskStatus.failed ∨
        t.status = TaskStatus.cancelled then (false, s)
    else
      let t2 := { t with status := TaskStatus.cancelled, completed_at := some now }
      let tasks2 := setA s.tasks task_id t2
      let pq2 :=
        match s.priority_queue.findIdx? (fun tid => lookupA tasks2 tid = some t2) with
        | some i => heapifyL (taskLt tasks2) (s.priority_queue.eraseIdx i)
        | none => s.priority_queue
      (true, { s with tasks := tasks2, priority_queue := pq2
                      running_tasks := s.running_tasks.erase task_id })

/-- One public `TaskQueue` operation together with its call arguments
(`now` is the wall clock at the moment of the call). -/
inductive QOp where
  | submit (id : String) (now : Nat) (task_type : TaskType)
      (priority : TaskPriority) (preferred_model : Option String)
      (timeout_seconds : Nat)
  | getNext (model_name : String) (supported_task_types : Option (List TaskType))
      (now : Nat)
  | complete (task_id : String) (result : String) (now : Nat)
  | fail (task_id : String) (error : String) (retry : Bool) (now : Nat)
  | cancel (task_id : String) (now : Nat)
  deriving DecidableEq, Repr

/-- Apply one operation, discarding its return value. -/
def applyOp (s : QueueState) : QOp → QueueState
  | .submit id now tt prio pref tmo => (submitTask s id now tt prio pref tmo).2
  | .getNext mn sup now => (getNextTask s mn sup now).2
  | .complete tid r now => (completeTask s tid r now).2
  | .fail tid e retry now => (failTask s tid e retry now).2
  | .cancel tid now => (cancelTask s tid now).2

/-- Apply a sequence of operations in order. -/
def applyOps (s : QueueState) (ops : List QOp) : QueueState := ops.foldl applyOp s

/-! ### memory_manager.py: MemoryPool -/

/-- Embeds `MemoryType` enum from memory_manager.py. -/
inductive MemoryType where
  | system_ram | gpu_memory | model_weights | inference_cache | data_cache | temporary
  deriving DecidableEq, Repr

/-- Embeds `MemoryPriority` enum from memory_manager.py. -/
inductive MemoryPriority where
  | critical | high | medium | low | disposable
  deriving DecidableEq, Repr

/-- Embeds `MemoryPool` state: its type, fixed budget, live allocation table
(id to `size_bytes`; the other `MemoryAllocation` fields do not affect
the accounting) and running `total_allocated` counter. -/
structure MemoryPool where
  memory_type : MemoryType
  max_size_bytes : Int
  allocations : List (String × Int)
  total_allocated : Int
  deriving DecidableEq, Repr

/-- A fresh `MemoryPool(memory_type, max_size_bytes)`. -/
def initPool (memory_type : MemoryType) (max_size_bytes : Int) : MemoryPool :=
  { memory_type := memory_type, max_size_bytes := max_size_bytes
    allocations := [], total_allocated := 0 }

/-- Embeds `MemoryPool.allocate`: fails (returns `none`, state untouched) when the
request would push `total_allocated` past the budget; otherwise stores the
allocation under the id `f"{owner}_{int(time.time())}_{len(self.allocations)}"`
and bumps the counter. -/
def MemoryPool.allocate (p : MemoryPool) (size_bytes : Int) (owner : String)
    (now : Nat) : Option String × MemoryPool :=
  if p.max_size_bytes < p.total_allocated + size_bytes then (none, p)
  else
    let allocation_id := owner ++ "_" ++ toString now ++ "_" ++ toString p.allocations.length
    (some allocation_id,
     { p with allocations := setA p.allocations allocation_id size_bytes
              total_allocated := p.total_allocated + size_bytes })

/-- Embeds `MemoryPool.deallocate`: frees a live allocation and updates the
counter; unknown ids are rejected without a state change. -/
def MemoryPool.deallocate (p : MemoryPool) (allocation_id : String) :
    Bool × MemoryPool :=
  match lookupA p.allocations allocation_id with
  | none => (false, p)
  | some size =>
    (true, { p with allocations := eraseA p.allocations allocation_id
                    total_allocated := p.total_allocated - size })

/-- One `MemoryPool` call with its arguments. -/
inductive PoolOp where
  | alloc (size_bytes : Int) (owner : String) (now : Nat)
  | dealloc (allocation_id : String)
  deriving DecidableEq, Repr

/-- Apply one pool operation, discarding its return value. -/
def applyPoolOp (p : MemoryPool) : PoolOp → MemoryPool
  | .alloc size owner now => (p.allocate size owner now).2
  | .dealloc id => (p.deallocate id).2

/-- Apply a sequence of pool operations in order. -/
def applyPoolOps (p : MemoryPool) (ops : List PoolOp) : MemoryPool :=
  ops.foldl applyPoolOp p

/-- Sum of the sizes of the live allocations of a pool. -/
def liveSum (p : MemoryPool) : Int := sumVals p.allocations

/-- The size an operation allocates (zero for deallocations). -/
def PoolOp.allocSize : PoolOp → Int
  | .alloc size _ _ => size
  | .dealloc _ => 0

/-- Sizes passed to `allocate` are non-negative byte counts. -/
def NonnegSizes (ops : List PoolOp) : Prop :=
  ∀ op ∈ ops, 0 ≤ op.allocSize

/-- The inductive pool invariant: all stored sizes are non-negative, the
live sum is covered by the accounting counter, and the counter respects
the budget. -/
def PoolInv (p : MemoryPool) : Prop :=
  (∀ kv ∈ p.allocations, 0 ≤ kv.2) ∧
  liveSum p ≤ p.total_allocated ∧
  p.total_allocated ≤ p.max_size_bytes

/-! ### load_balancer.py: performance-based selection -/

/-- One entry of the orchestrator's `get_model_status()` snapshot, as the
load balancer's selection strategies read it (already filtered to READY
and under-capacity workers by `select_model`). -/
structure AvailableModel where
  name : String
  current_requests : Nat
  deriving DecidableEq, Repr

/-- Result of a load-balancing decision (reasoning text omitted). -/
structure LoadBalancingDecision where
  selected_model : String
  confidence : ℚ
  alternative_models : List String
  estimated_wait_time : ℚ
  estimated_processing_time : ℚ
  deriving DecidableEq, Repr

/-- Embeds `self.task_model_performance`: per-(task-type, model) recorded
response times; a `none` sample stands for the `float('inf')` recorded
on failure. -/
abbrev PerfMap := List ((TaskType × String) × List (Option ℚ))

/-- Lookup in the performance map (Python `key in dict` + access). -/
def perfLookup (perf : PerfMap) (tt : TaskType) (name : String) :
    Option (List (Option ℚ)) :=
  match perf with
  | [] => none
  | (k, v) :: rest => if k = (tt, name) then some v else perfLookup rest tt name

/-- Embeds `[t for t in times if t != float('inf')]`. -/
def validTimes (times : List (Option ℚ)) : List ℚ := times.filterMap id

/-- Embeds `statistics.mean`. -/
def listMean (l : List ℚ) : ℚ := l.sum / l.length

/-- Embeds `LoadBalancer._is_model_suitable` (returns True for every model in the
current code). -/
def isModelSuitable (model_name : String) (task_type : TaskType) : Bool := true

/-- Stable insertion of a model into a list sorted by ascending
`current_requests` (Python's stable `list.sort(key=...)`). -/
def insertByLoad (m : AvailableModel) : List AvailableModel → List AvailableModel
  | [] => [m]
  | x :: xs =>
    if x.current_requests ≤ m.current_requests then x :: insertByLoad m xs
    else m :: x :: xs

/-- Stable sort by ascending `current_requests`. -/
def sortByLoad (l : List AvailableModel) : List AvailableModel :=
  l.foldl (fun acc m => insertByLoad m acc) []

/-- Embeds `LoadBalancer._least_connections_selection`: among suitable models,
the first one (in submission-snapshot order) with the fewest current
requests. -/
def leastConnectionsSelection (available_models : List AvailableModel)
    (task_type : TaskType) : Option LoadBalancingDecision :=
  let suitable_models :=
    available_models.filter (fun m => isModelSuitable m.name task_type)
  match sortByLoad suitable_models with
  | [] => none
  | m :: _ =>
    some { selected_model := m.name, confidence := 7/10, alternative_models := []
           estimated_wait_time := (m.current_requests : ℚ) * 30
           estimated_processing_time := 0 }

/-- One step of `_performance_based_selection`'s loop: a model replaces
the running best only when its (task type, model) history exists, has at
least `min_requests_for_stats` valid samples, and its mean beats the
current best strictly. -/
def perfStep (minReq : Nat) (perf : PerfMap) (tt : TaskType)
    (best : Option (String × ℚ)) (m : AvailableModel) : Option (String × ℚ) :=
  if isModelSuitable m.name tt = false then best
  else
    match perfLookup perf tt m.name with
    | none => best
    | some times =>
      let valid := validTimes times
      if minReq ≤ valid.length then
        let avg := listMean valid
        match best with
        | none => some (m.name, avg)
        | some b => if avg < b.2 then some (m.name, avg) else some b
      else best

/-- The loop of `_performance_based_selection` over the available models. -/
def perfFold (minReq : Nat) (perf : PerfMap) (tt : TaskType)
    (models : List AvailableModel) : Option (String × ℚ) :=
  models.foldl (perfStep minReq perf tt) none

/-- Embeds `LoadBalancer._performance_based_selection` (with
`min_requests_for_stats` as the `minReq` parameter, 5 in the default
config): best historical mean, else fall back to least connections. -/
def performanceBasedSelection (minReq : Nat) (perf : PerfMap)
    (available_models : List AvailableModel) (task_type : TaskType) :
    Option LoadBalancingDecision :=
  match perfFold minReq perf task_type available_models with
  | none => leastConnectionsSelection available_models task_type
  | some (best_model, best_performance) =>
    some { selected_model := best_model, confidence := 4/5
           alternative_models := [], estimated_wait_time := 0
           estimated_processing_time := best_performance }

/-- A model qualifies for performance-based routing: recorded history for
this exact task type with at least `minReq` valid (non-inf) samples. -/
def Qualified (minReq : Nat) (perf : PerfMap) (tt : TaskType)
    (m : AvailableModel) : Prop :=
  ∃ times, perfLookup perf tt m.name = some times ∧
    minReq ≤ (validTimes times).length

/-- The historical mean the code compares for a qualified model. -/
def meanFor (perf : PerfMap) (tt : TaskType) (m : AvailableModel) : ℚ :=
  listMean (validTimes ((perfLookup perf tt m.name).getD []))

/-- Insertion into a sorted rational list (ascending). -/
def insertQ (x : ℚ) : List ℚ → List ℚ
  | [] => [x]
  | y :: ys => if y ≤ x then y :: insertQ x ys else x :: y :: ys

/-- Sort a rational list ascending. -/
def sortQ (l : List ℚ) : List ℚ := l.foldl (fun acc x => insertQ x acc) []

/-- Modelled from the spec: the "historical median latency" the spec's
performance-based strategy refers to (`statistics.median`), used only to
state the original claim against the code's behaviour. -/
def specMedian (l : List ℚ) : ℚ :=
  let s := sortQ l
  if l.length % 2 = 1 then s.getD (l.length / 2) 0
  else (s.getD (l.length / 2 - 1) 0 + s.getD (l.length / 2) 0) / 2

/-! ### ai_coordinator.py: confidence score and submission -/

/-- One verifier outcome as `_calculate_confidence_score` inspects it:
`some b` is a dict result whose `"consensus"` key reads `b`; `none` is a
non-dict result (counted in the total, never as consensus). -/
abbrev VerificationResult := Option Bool

/-- The `consensus_ratio` computed inside `_calculate_confidence_score`:
verifier results whose consensus flag is set over all verifier results. -/
def consensusRatio (verification_results : List VerificationResult) : ℚ :=
  let consensus_count :=
    (verification_results.filter (fun v => v = some true)).length
  let total_verifications := verification_results.length
  if 0 < total_verifications then (consensus_count : ℚ) / total_verifications
  else 0

/-- Embeds `AICoordinator._calculate_confidence_score`. -/
def calculateConfidenceScore (consensus_threshold : ℚ)
    (verification_results : List VerificationResult) : ℚ :=
  if verification_results = [] then 1/2
  else
    let consensus_ratio : ℚ := consensusRatio verification_results
    if consensus_threshold ≤ consensus_ratio then
      min 1 (7/10 + consensus_ratio * (3/10))
    else max (1/10) (consensus_ratio * (7/10))

/-- The confidence score `_handle_completed_analysis` stores: the
consensus formula when verification ran, the fixed default 0.8 otherwise. -/
def completedConfidence (verification_required multi_model_verification : Bool)
    (consensus_threshold : ℚ) (verification_results : List VerificationResult) : ℚ :=
  if verification_required && multi_model_verification then
    calculateConfidenceScore consensus_threshold verification_results
  else 4/5

/-- Embeds `AnalysisType` enum from ai_coordinator.py. -/
inductive AnalysisType where
  | hypothesis_generation | data_analysis | verification | policy_analysis
  | forecasting | research_synthesis | report_generation
  | monte_carlo_simulation | cellular_automata
  deriving DecidableEq, Repr

/-- Embeds `AICoordinator._analysis_to_task_type` (total mapping; the dict
fallback `TaskType.DATA_ANALYSIS` is unreachable for this enum). -/
def analysisToTaskType : AnalysisType → TaskType
  | .hypothesis_generation => .hypothesis_generation
  | .data_analysis => .data_analysis
  | .verification => .verification
  | .policy_analysis => .policy_analysis
  | .forecasting => .forecasting
  | .research_synthesis => .research_synthesis
  | .report_generation => .report_generation
  | .monte_carlo_simulation => .monte_carlo
  | .cellular_automata => .cellular_automata

/-- Embeds `AnalysisRequest` (payload/context/callback omitted as in `Task`). -/
structure AnalysisRequest where
  analysis_type : AnalysisType
  priority : TaskPriority
  preferred_models : Option (List String)
  verification_required : Bool
  timeout_seconds : Nat
  deriving DecidableEq, Repr

/-- Embeds `request.preferred_models[0] if request.preferred_models else None`
(`None` and the empty list are both falsy). -/
def requestPreferredModel (preferred_models : Option (List String)) :
    Option String :=
  match preferred_models with
  | none => none
  | some [] => none
  | some (m :: _) => some m

/-- Embeds `AICoordinator.submit_analysis`: maps the analysis kind to a task
type and delegates to `TaskQueue.submit_task`, forwarding only the head
of `preferred_models` as the preferred worker. -/
def submitAnalysis (s : QueueState) (id : String) (now : Nat)
    (request : AnalysisRequest) : Option String × QueueState :=
  submitTask s id now (analysisToTaskType request.analysis_type)
    request.priority (requestPreferredModel request.preferred_models)
    request.timeout_seconds

/-! ### model_orchestrator.py: worker loading -/

/-- Embeds `ModelPriority` enum from model_orchestrator.py. -/
inductive ModelPriority where
  | high | medium | low
  deriving DecidableEq, Repr

/-- Embeds `ModelStatus` enum from model_orchestrator.py. -/
inductive ModelStatus where
  | loading | ready | busy | error | unloaded
  deriving DecidableEq, Repr

/-- Embeds `ModelConfig` (fields the lifecycle operations read). -/
structure ModelConfig where
  name : String
  priority : ModelPriority
  gpu_memory_gb : ℚ
  ram_memory_gb : ℚ
  max_concurrent_requests : Nat
  model_type : String
  deriving DecidableEq, Repr

/-- Embeds `ModelInstance` runtime record. -/
structure ModelInstance where
  config : ModelConfig
  status : ModelStatus
  current_requests : Nat
  total_requests : Nat
  error_count : Nat
  last_used : Nat
  deriving DecidableEq, Repr

/-- Embeds `ModelOrchestrator._check_resource_availability` with the live
psutil/GPUtil readings passed in: when a GPU is visible, its free memory
must cover the model's GPU need, and free RAM must cover the RAM need. -/
def checkResourceAvailability (gpu_present : Bool)
    (available_gpu_memory available_ram : ℚ) (config : ModelConfig) : Bool :=
  (if gpu_present then !(available_gpu_memory < config.gpu_memory_gb) else true) &&
  !(available_ram < config.ram_memory_gb)

/-- Embeds `ModelOrchestrator.load_model` with the external effects abstracted:
`load_ok` is the outcome of the backend-specific load call (an exception
behaves like a failed load). Returns the success flag and the updated
model table. -/
def loadModel (models : List (String × ModelInstance)) (model_name : String)
    (gpu_present : Bool) (available_gpu_memory available_ram : ℚ)
    (load_ok : Bool) (now : Nat) : Bool × List (String × ModelInstance) :=
  match lookupA models model_name with
  | none => (false, models)
  | some instance0 =>
    if instance0.status = ModelStatus.ready then (true, models)
    else
      -- (status is LOADING only transiently inside the call: every exit
      -- path below overwrites it, so it is folded into the final updates)
      if checkResourceAvailability gpu_present available_gpu_memory available_ram
          instance0.config = false then
        (false, setA models model_name
          { instance0 with status := ModelStatus.error })
      else
        if (instance0.config.model_type = "ollama" ∨
            instance0.config.model_type = "vllm") ∧ load_ok = true then
          (true, setA models model_name
            { instance0 with status := ModelStatus.ready, last_used := now })
        else
          (false, setA models model_name
            { instance0 with status := ModelStatus.error
                             error_count := instance0.error_count + 1 })

/-! ### Invariants and observations -/

/-- Claim C1's amended per-task invariant: every tracked task that is not
(yet) FAILED has `retry_count ≤ max_retries`. -/
def RetryInvM (m : TaskMap) : Prop :=
  ∀ kv ∈ m, kv.2.status ≠ TaskStatus.failed →
    kv.2.retry_count ≤ kv.2.max_retries

/-- The retry invariant of a queue state. -/
def RetryInv (s : QueueState) : Prop := RetryInvM s.tasks

/-- The spec's original unconditional bound: `retry_count ≤ max_retries`
for every tracked task at every observation. -/
def RetryBoundAll (m : TaskMap) : Prop :=
  ∀ kv ∈ m, kv.2.retry_count ≤ kv.2.max_retries

/-- The size invariant of a queue state: the tracked-task count respects
the configured maximum. -/
def SizeInv (s : QueueState) : Prop := s.tasks.length ≤ s.max_queue_size

/-- Observation of one tracked task: status, retry count, max retries. -/
def taskObs (s : QueueState) (id : String) : Option (TaskStatus × Nat × Nat) :=
  (lookupA s.tasks id).map (fun t => (t.status, t.retry_count, t.max_retries))

/-- Observation of one tracked task: status and retry count. -/
def statusRetryObs (s : QueueState) (id : String) : Option (TaskStatus × Nat) :=
  (lookupA s.tasks id).map (fun t => (t.status, t.retry_count))

/-- Observation of one tracked task: status and creation timestamp. -/
def statusCreatedObs (s : QueueState) (id : String) : Option (TaskStatus × Nat) :=
  (lookupA s.tasks id).map (fun t => (t.status, t.created_at))

/-- Id and priority value of the task `get_next_task` returns. -/
def pickedPrioObs (s : QueueState) (mn : String)
    (sup : Option (List TaskType)) (now : Nat) : Option (String × Nat) :=
  (getNextTask s mn sup now).1.map (fun t => (t.id, t.priority.val))

/-- Id and creation timestamp of the task `get_next_task` returns. -/
def pickedCreatedObs (s : QueueState) (mn : String)
    (sup : Option (List TaskType)) (now : Nat) : Option (String × Nat) :=
  (getNextTask s mn sup now).1.map (fun t => (t.id, t.created_at))

/-- Priority value of one tracked task. -/
def taskPrioVal (s : QueueState) (id : String) : Option Nat :=
  (lookupA s.tasks id).map (fun t => t.priority.val)

/-- Observation of one model instance: status and error counter. -/
def modelObs (models : List (String × ModelInstance)) (name : String) :
    Option (ModelStatus × Nat) :=
  (lookupA models name).map (fun i => (i.status, i.error_count))

/-! ### Concrete scenarios -/

/-- Claim C1, reachable run: one submitted task (dataclass default
`max_retries = 3`) assigned and failed-with-retry four times in a row. -/
def c1Ops : List QOp :=
  [ QOp.submit "T" 0 TaskType.data_analysis TaskPriority.normal none 300
  , QOp.getNext "m" none 1, QOp.fail "T" "e" true 2
  , QOp.getNext "m" none 3, QOp.fail "T" "e" true 4
  , QOp.getNext "m" none 5, QOp.fail "T" "e" true 6
  , QOp.getNext "m" none 7, QOp.fail "T" "e" true 8 ]

/-- Claim C1's final state for the reachable run. -/
def c1Final : QueueState := applyOps (initialQueue 100) c1Ops

/-- Claim C1's scenario task: `max_retries = 2` exactly as the claim
posits (constructed directly through the `Task` dataclass, since
`submit_task` always leaves the default 3). -/
def c1DemoTask : Task :=
  { id := "T", task_type := TaskType.data_analysis
    priority := TaskPriority.normal, preferred_model := none
    max_retries := 2, timeout_seconds := 300, created_at := 0
    assigned_at := none, started_at := none, completed_at := none
    assigned_model := none, status := TaskStatus.queued, result := none
    error := none, retry_count := 0 }

/-- Queue holding only the `max_retries = 2` scenario task. -/
def c1Demo0 : QueueState :=
  { max_queue_size := 100, tasks := [("T", c1DemoTask)]
    priority_queue := ["T"], running_tasks := [], completed_tasks := []
    failed_tasks := [] }

/-- Scenario state after the first assignment/failure round. -/
def c1Demo1 : QueueState :=
  applyOps c1Demo0 [QOp.getNext "m" none 1, QOp.fail "T" "e" true 2]

/-- Scenario state after the second assignment/failure round. -/
def c1Demo2 : QueueState :=
  applyOps c1Demo1 [QOp.getNext "m" none 3, QOp.fail "T" "e" true 4]

/-- Scenario state after the third assignment/failure round. -/
def c1Demo3 : QueueState :=
  applyOps c1Demo2 [QOp.getNext "m" none 5, QOp.fail "T" "e" true 6]

/-- Claim C2's run: a CRITICAL task of an unsupported type submitted
first, then a LOW task and a NORMAL task of the requested type. -/
def c2State : QueueState :=
  applyOps (initialQueue 100)
    [ QOp.submit "A" 0 TaskType.hypothesis_generation TaskPriority.critical none 300
    , QOp.submit "B" 1 TaskType.data_analysis TaskPriority.low none 300
    , QOp.submit "C" 2 TaskType.data_analysis TaskPriority.normal none 300 ]

/-- Claim C3's run: submit at t=0, assign at t=1. -/
def c3Assigned : QueueState :=
  applyOps (initialQueue 100)
    [ QOp.submit "T" 0 TaskType.data_analysis TaskPriority.normal none 300
    , QOp.getNext "m" none 1 ]

/-- The assigned task of `c3Assigned` (value of `lookupA` there). -/
def c3TaskA : Task :=
  { id := "T", task_type := TaskType.data_analysis
    priority := TaskPriority.normal, preferred_model := none
    max_retries := 3, timeout_seconds := 300, created_at := 0
    assigned_at := some 1, started_at := none, completed_at := none
    assigned_model := some "m", status := TaskStatus.assigned, result := none
    error := none, retry_count := 0 }

/-- Claim C3's run continued: the assigned task fails transiently at
t=10, so it is re-queued with `created_at = 10 + min(60, 2^1) = 12`. -/
def c3State : QueueState := (failTask c3Assigned "T" "boom" true 10).2

/-- Claim C4's run: submit, assign, complete. -/
def c4State : QueueState :=
  applyOps (initialQueue 100)
    [ QOp.submit "T" 0 TaskType.data_analysis TaskPriority.normal none 300
    , QOp.getNext "m" none 1, QOp.complete "T" "ok" 2 ]

/-- The completed (terminal) task of `c4State`. -/
def c4TaskC : Task :=
  { id := "T", task_type := TaskType.data_analysis
    priority := TaskPriority.normal, preferred_model := none
    max_retries := 3, timeout_seconds := 300, created_at := 0
    assigned_at := some 1, started_at := none, completed_at := some 2
    assigned_model := some "m", status := TaskStatus.completed
    result := some "ok", error := none, retry_count := 0 }

/-- Claim C5's demonstration pool (budget 100 bytes). -/
def c5Pool : MemoryPool := initPool MemoryType.model_weights 100

/-- Claim C5's demonstration call sequence: the second allocation
overflows the budget and must be refused. -/
def c5Ops : List PoolOp :=
  [ PoolOp.alloc 60 "owner" 0, PoolOp.alloc 50 "owner" 1
  , PoolOp.alloc 30 "owner" 2, PoolOp.dealloc "owner_0_0" ]

/-- Claim C6's full queue: capacity 1, one task tracked. -/
def c6Full : QueueState :=
  applyOps (initialQueue 1)
    [QOp.submit "A" 0 TaskType.data_analysis TaskPriority.normal none 300]

/-- Claim C6's queue with headroom: capacity 2, one task tracked. -/
def c6Room : QueueState :=
  applyOps (initialQueue 2)
    [QOp.submit "A" 0 TaskType.data_analysis TaskPriority.normal none 300]

/-- Claim C7's recorded history: worker w1 has median latency 1 but mean
20.8 for DATA_ANALYSIS; worker w2 has median and mean 10. -/
def c7Perf : PerfMap :=
  [ ((TaskType.data_analysis, "w1"),
      [some 1, some 1, some 1, some 1, some 100])
  , ((TaskType.data_analysis, "w2"),
      [some 10, some 10, some 10, some 10, some 10]) ]

/-- Claim C7's eligible workers, both idle. -/
def c7Models : List AvailableModel := [⟨"w1", 0⟩, ⟨"w2", 0⟩]

/-- Claim C7's fallback scenario: no recorded history at all. -/
def c7NoHist : PerfMap := []

/-- Claim C9's model configuration: an ollama model needing 12 GB RAM. -/
def c9Config : ModelConfig :=
  { name := "m", priority := ModelPriority.medium, gpu_memory_gb := 24
    ram_memory_gb := 12, max_concurrent_requests := 1, model_type := "ollama" }

/-- Claim C9's unloaded instance with a clean error counter. -/
def c9Inst : ModelInstance :=
  { config := c9Config, status := ModelStatus.unloaded, current_requests := 0
    total_requests := 0, error_count := 0, last_used := 0 }

/-- Claim C9's model table. -/
def c9Models : List (String × ModelInstance) := [("m", c9Inst)]

/-- Claim C10's request skeleton. -/
def c10Request : AnalysisRequest :=
  { analysis_type := AnalysisType.data_analysis, priority := TaskPriority.normal
    preferred_models := some ["w1", "w2", "w3"], verification_required := true
    timeout_seconds := 300 }

/-! ### Association-list lemmas -/

theorem lookupA_setA {β : Type} (m : List (String × β)) (k key : String) (v : β) :
    lookupA (setA m k v) key = if k = key then some v else lookupA m key := by
  induction m with
  | nil =>
    by_cases h : k = key <;> simp [setA, lookupA, h]
  | cons hd tl ih =>
    obtain ⟨a, b⟩ := hd
    by_cases hak : a = k
    · subst hak
      by_cases h : a = key <;> simp [setA, lookupA, h]
    · by_cases h : a = key
      · subst h
        have hk : ¬ k = a := fun hh => hak hh.symm
        simp [setA, lookupA, hak, hk]
      · simp [setA, lookupA, hak, h, ih]

theorem length_setA_of_lookup {β : Type} (m : List (String × β)) (k : String)
    (v w : β) (h : lookupA m k = some w) : (setA m k v).length = m.length := by
  induction m with
  | nil => simp [lookupA] at h
  | cons hd tl ih =>
    obtain ⟨a, b⟩ := hd
    by_cases hak : a = k
    · simp [setA, hak]
    · simp only [lookupA, hak, if_false] at h
      simp [setA, hak, ih h]

theorem length_setA_le {β : Type} (m : List (String × β)) (k : String) (v : β) :
    (setA m k v).length ≤ m.length + 1 := by
  induction m with
  | nil => simp [setA]
  | cons hd tl ih =>
    obtain ⟨a, b⟩ := hd
    by_cases hak : a = k <;> simp [setA, hak] <;> omega

theorem mem_setA {β : Type} (m : List (String × β)) (k : String) (v : β) :
    ∀ kv ∈ setA m k v, kv.2 = v ∨ kv ∈ m := by
  induction m with
  | nil => intro kv hkv; simp [setA] at hkv; simp [hkv]
  | cons hd tl ih =>
    obtain ⟨a, b⟩ := hd
    intro kv hkv
    by_cases hak : a = k
    · simp [setA, hak] at hkv
      rcases hkv with h | h
      · simp [h]
      · right; simp [h]
    · simp [setA, hak] at hkv
      rcases hkv with h | h
      · right; simp [h]
      · rcases ih kv h with h2 | h2
        · exact Or.inl h2
        · right; simp [h2]

theorem lookupA_mem {β : Type} (m : List (String × β)) (k : String) (v : β)
    (h : lookupA m k = some v) : (k, v) ∈ m := by
  induction m with
  | nil => simp [lookupA] at h
  | cons hd tl ih =>
    obtain ⟨a, b⟩ := hd
    by_cases hak : a = k
    · subst hak
      simp [lookupA] at h
      simp [h]
    · simp only [lookupA, hak, if_false] at h
      simp [ih h]

theorem sumVals_setA_none (m : List (String × Int)) (k : String) (v : Int)
    (h : lookupA m k = none) : sumVals (setA m k v) = sumVals m + v := by
  induction m with
  | nil => simp [setA, sumVals]
  | cons hd tl ih =>
    obtain ⟨a, b⟩ := hd
    by_cases hak : a = k
    · simp [lookupA, hak] at h
    · simp only [lookupA, hak, if_false] at h
      have ih2 := ih h
      simp [setA, hak, sumVals, List.sum_cons] at ih2 ⊢
      omega

theorem sumVals_setA_some (m : List (String × Int)) (k : String) (v old : Int)
    (h : lookupA m k = some old) : sumVals (setA m k v) = sumVals m + v - old := by
  induction m with
  | nil => simp [lookupA] at h
  | cons hd tl ih =>
    obtain ⟨a, b⟩ := hd
    by_cases hak : a = k
    · subst hak
      simp [lookupA] at h
      subst h
      simp [setA, sumVals]
      omega
    · simp only [lookupA, hak, if_false] at h
      have ih2 := ih h
      simp [setA, hak, sumVals, List.sum_cons] at ih2 ⊢
      omega

theorem eraseA_of_lookup_none {β : Type} (m : List (String × β)) (k : String)
    (h : lookupA m k = none) : eraseA m k = m := by
  induction m with
  | nil => simp [eraseA]
  | cons hd tl ih =>
    obtain ⟨a, b⟩ := hd
    by_cases hak : a = k
    · simp [lookupA, hak] at h
    · simp only [lookupA, hak, if_false] at h
      simp [eraseA, hak, ih h]

theorem sumVals_eraseA (m : List (String × Int)) (k : String) (v : Int)
    (h : lookupA m k = some v) : sumVals (eraseA m k) = sumVals m - v := by
  induction m with
  | nil => simp [lookupA] at h
  | cons hd tl ih =>
    obtain ⟨a, b⟩ := hd
    by_cases hak : a = k
    · subst hak
      simp [lookupA] at h
      subst h
      simp [eraseA, sumVals]
    · simp only [lookupA, hak, if_false] at h
      have ih2 := ih h
      simp [eraseA, hak, sumVals, List.sum_cons] at ih2 ⊢
      omega

/-! ### Queue invariants -/

theorem retryInvM_setA (m : TaskMap) (k : String) (t2 : Task)
    (hm : RetryInvM m)
    (h2 : t2.status ≠ TaskStatus.failed → t2.retry_count ≤ t2.max_retries) :
    RetryInvM (setA m k t2) := by
  intro kv hkv hne
  rcases mem_setA m k t2 kv hkv with h | h
  · rw [h] at hne ⊢
    exact h2 hne
  · exact hm kv h hne

theorem eligibleFor_status (m : TaskMap) (mn : String)
    (sup : Option (List TaskType)) (tid : String)
    (h : eligibleFor m mn sup tid = true) :
    ∃ t, lookupA m tid = some t ∧ t.status = TaskStatus.queued := by
  unfold eligibleFor at h
  cases hl : lookupA m tid with
  | none => rw [hl] at h; simp at h
  | some t =>
    rw [hl] at h
    refine ⟨t, rfl, ?_⟩
    simp only [Bool.and_eq_true, decide_eq_true_eq] at h
    exact h.1.1

theorem getNextPick_eligible (s : QueueState) (mn : String)
    (sup : Option (List TaskType)) (i : Nat) (tid : String)
    (h : getNextPick s mn sup = some (i, tid)) :
    eligibleFor s.tasks mn sup tid = true := by
  unfold getNextPick at h
  split at h
  · simp at h
  · cases hf : (s.priority_queue.enum).filter
        (fun p => eligibleFor s.tasks mn sup p.2) with
    | nil => rw [hf] at h; simp at h
    | cons p rest =>
      rw [hf] at h
      simp only [List.head?_cons, Option.some.injEq] at h
      have hmem : p ∈ (s.priority_queue.enum).filter
          (fun q => eligibleFor s.tasks mn sup q.2) := by
        rw [hf]; exact List.mem_cons_self p rest
      have := (List.mem_filter.mp hmem).2
      rw [h] at this
      exact this

theorem retryInv_applyOp (s : QueueState) (op : QOp) (h : RetryInv s) :
    RetryInv (applyOp s op) := by
  cases op with
  | submit id now tt prio pref tmo =>
    simp only [RetryInv, applyOp, submitTask]
    split
    · exact h
    · exact retryInvM_setA _ _ _
        (retryInvM_setA _ _ _ h (fun _ => by simp))
        (fun _ => by simp)
  | getNext mn sup now =>
    simp only [RetryInv, applyOp, getNextTask]
    cases hp : getNextPick s mn sup with
    | none => simp only [hp]; exact h
    | some p =>
      obtain ⟨i, tid⟩ := p
      cases hl : lookupA s.tasks tid with
      | none => simp only [hp, hl]; exact h
      | some t =>
        simp only [hp, hl]
        obtain ⟨t', hl', hst⟩ :=
          eligibleFor_status _ _ _ _ (getNextPick_eligible s mn sup i tid hp)
        rw [hl] at hl'
        injection hl' with hl'
        subst hl'
        exact retryInvM_setA _ _ _ h
          (fun _ => h (tid, t) (lookupA_mem _ _ _ hl) (by rw [hst]; simp))
  | complete tid r now =>
    simp only [RetryInv, applyOp, completeTask]
    cases hl : lookupA s.tasks tid with
    | none => simp only [hl]; exact h
    | some t =>
      simp only [hl]
      split
      · rename_i hst
        exact retryInvM_setA _ _ _ h
          (fun _ => h (tid, t) (lookupA_mem _ _ _ hl)
            (by rcases hst with h1 | h1 <;> rw [h1] <;> simp))
      · exact h
  | fail tid e retry now =>
    simp only [RetryInv, applyOp, failTask]
    cases hl : lookupA s.tasks tid with
    | none => simp only [hl]; exact h
    | some t =>
      simp only [hl]
      split
      · rename_i hc
        exact retryInvM_setA _ _ _ h (fun _ => hc.2.1)
      · exact retryInvM_setA _ _ _ h (fun hne => absurd rfl hne)
  | cancel tid now =>
    simp only [RetryInv, applyOp, cancelTask]
    cases hl : lookupA s.tasks tid with
    | none => simp only [hl]; exact h
    | some t =>
      simp only [hl]
      split
      · exact h
      · rename_i hterm
        exact retryInvM_setA _ _ _ h
          (fun _ => h (tid, t) (lookupA_mem _ _ _ hl)
            (fun hf => hterm (Or.inr (Or.inl hf))))

theorem retryInv_applyOps (s : QueueState) (ops : List QOp) (h : RetryInv s) :
    RetryInv (applyOps s ops) := by
  induction ops generalizing s with
  | nil => exact h
  | cons op rest ih => exact ih (applyOp s op) (retryInv_applyOp s op h)

theorem max_queue_size_applyOp (s : QueueState) (op : QOp) :
    (applyOp s op).max_queue_size = s.max_queue_size := by
  cases op with
  | submit id now tt prio pref tmo =>
    simp only [applyOp, submitTask]
    split <;> rfl
  | getNext mn sup now =>
    simp only [applyOp, getNextTask]
    cases hp : getNextPick s mn sup with
    | none => rfl
    | some p =>
      obtain ⟨i, tid⟩ := p
      cases hl : lookupA s.tasks tid <;> simp only [hl] <;> rfl
  | complete tid r now =>
    simp only [applyOp, completeTask]
    cases hl : lookupA s.tasks tid with
    | none => rfl
    | some t =>
      simp only [hl]
      split <;> rfl
  | fail tid e retry now =>
    simp only [applyOp, failTask]
    cases hl : lookupA s.tasks tid with
    | none => rfl
    | some t =>
      simp only [hl]
      split <;> rfl
  | cancel tid now =>
    simp only [applyOp, cancelTask]
    cases hl : lookupA s.tasks tid with
    | none => rfl
    | some t =>
      simp only [hl]
      split <;> rfl

theorem length_setA_setA {β : Type} (m : List (String × β)) (k : String)
    (v w : β) : (setA (setA m k v) k w).length ≤ m.length + 1 := by
  rw [length_setA_of_lookup (setA m k v) k w v (by rw [lookupA_setA]; simp)]
  exact length_setA_le m k v

theorem sizeInv_applyOp (s : QueueState) (op : QOp) (h : SizeInv s) :
    SizeInv (applyOp s op) := by
  cases op with
  | submit id now tt prio pref tmo =>
    simp only [SizeInv, applyOp, submitTask]
    split
    · exact h
    · rename_i hlt
      simp only
      refine le_trans (length_setA_setA _ _ _ _) ?_
      unfold SizeInv at h
      omega
  | getNext mn sup now =>
    simp only [SizeInv, applyOp, getNextTask]
    cases hp : getNextPick s mn sup with
    | none => simp only [hp]; exact h
    | some p =>
      obtain ⟨i, tid⟩ := p
      cases hl : lookupA s.tasks tid with
      | none => simp only [hp, hl]; exact h
      | some t =>
        simp only [hp, hl]
        rw [length_setA_of_lookup s.tasks tid _ t hl]
        exact h
  | complete tid r now =>
    simp only [SizeInv, applyOp, completeTask]
    cases hl : lookupA s.tasks tid with
    | none => simp only [hl]; exact h
    | some t =>
      simp only [hl]
      split
      · rw [length_setA_of_lookup s.tasks tid _ t hl]
        exact h
      · exact h
  | fail tid e retry now =>
    simp only [SizeInv, applyOp, failTask]
    cases hl : lookupA s.tasks tid with
    | none => simp only [hl]; exact h
    | some t =>
      simp only [hl]
      split <;>
        (rw [length_setA_of_lookup s.tasks tid _ t hl]; exact h)
  | cancel tid now =>
    simp only [SizeInv, applyOp, cancelTask]
    cases hl : lookupA s.tasks tid with
    | none => simp only [hl]; exact h
    | some t =>
      simp only [hl]
      split
      · exact h
      · rw [length_setA_of_lookup s.tasks tid _ t hl]
        exact h

theorem sizeInv_applyOps (s : QueueState) (ops : List QOp) (h : SizeInv s) :
    SizeInv (applyOps s ops) := by
  induction ops generalizing s with
  | nil => exact h
  | cons op rest ih => exact ih (applyOp s op) (sizeInv_applyOp s op h)

theorem mem_eraseA {β : Type} (m : List (String × β)) (k : String) :
    ∀ kv ∈ eraseA m k, kv ∈ m := by
  induction m with
  | nil => simp [eraseA]
  | cons hd tl ih =>
    obtain ⟨a, b⟩ := hd
    intro kv hkv
    by_cases hak : a = k
    · simp [eraseA, hak] at hkv
      simp [hkv]
    · simp [eraseA, hak] at hkv
      rcases hkv with h | h
      · simp [h]
      · simp [ih kv h]

/-! ### Memory pool invariant -/

theorem poolInv_allocate (p : MemoryPool) (size : Int) (owner : String)
    (now : Nat) (h : PoolInv p) (hs : 0 ≤ size) :
    PoolInv (p.allocate size owner now).2 := by
  obtain ⟨hnn, hsum, hmax⟩ := h
  simp only [MemoryPool.allocate]
  split
  · exact ⟨hnn, hsum, hmax⟩
  · rename_i hfit
    push_neg at hfit
    refine ⟨?_, ?_, ?_⟩
    · intro kv hkv
      rcases mem_setA p.allocations _ size kv hkv with h | h
      · rw [h]; exact hs
      · exact hnn kv h
    · simp only [liveSum]
      cases hl : lookupA p.allocations
          (owner ++ "_" ++ toString now ++ "_" ++ toString p.allocations.length) with
      | none =>
        rw [sumVals_setA_none _ _ _ hl]
        simp only [liveSum] at hsum
        omega
      | some old =>
        rw [sumVals_setA_some _ _ _ _ hl]
        have hold : 0 ≤ old := hnn _ (lookupA_mem _ _ _ hl)
        simp only [liveSum] at hsum
        omega
    · simpa using hfit

theorem poolInv_deallocate (p : MemoryPool) (id : String) (h : PoolInv p) :
    PoolInv (p.deallocate id).2 := by
  obtain ⟨hnn, hsum, hmax⟩ := h
  simp only [MemoryPool.deallocate]
  cases hl : lookupA p.allocations id with
  | none => exact ⟨hnn, hsum, hmax⟩
  | some size =>
    have hsz : 0 ≤ size := hnn _ (lookupA_mem _ _ _ hl)
    refine ⟨fun kv hkv => hnn kv (mem_eraseA _ _ kv hkv), ?_, ?_⟩
    · simp only [liveSum]
      rw [sumVals_eraseA _ _ _ hl]
      simp only [liveSum] at hsum
      omega
    · simp only
      omega

theorem poolInv_applyPoolOps (p : MemoryPool) (ops : List PoolOp)
    (h : PoolInv p) (hs : NonnegSizes ops) : PoolInv (applyPoolOps p ops) := by
  induction ops generalizing p with
  | nil => exact h
  | cons op rest ih =>
    have hop : PoolInv (applyPoolOp p op) := by
      cases op with
      | alloc size owner now =>
        exact poolInv_allocate p size owner now h
          (hs (PoolOp.alloc size owner now) (List.mem_cons_self _ _))
      | dealloc id => exact poolInv_deallocate p id h
    exact ih (applyPoolOp p op) hop
      (fun op2 h2 => hs op2 (List.mem_cons_of_mem op h2))

/-! ### Performance-based selection characterisation -/

theorem perfStep_of_not_qual (minReq : Nat) (perf : PerfMap) (tt : TaskType)
    (acc : Option (String × ℚ)) (m : AvailableModel)
    (h : ¬ Qualified minReq perf tt m) : perfStep minReq perf tt acc m = acc := by
  simp only [perfStep, isModelSuitable]
  rw [if_neg (by decide : ¬ (true = false))]
  cases hl : perfLookup perf tt m.name with
  | none => rfl
  | some times =>
    simp only
    split
    · rename_i hlen
      exact absurd ⟨times, hl, hlen⟩ h
    · rfl

theorem perfStep_none_of_qual (minReq : Nat) (perf : PerfMap) (tt : TaskType)
    (m : AvailableModel) (h : Qualified minReq perf tt m) :
    perfStep minReq perf tt none m = some (m.name, meanFor perf tt m) := by
  obtain ⟨times, hl, hlen⟩ := h
  simp only [perfStep, isModelSuitable, hl, meanFor, Option.getD_some]
  rw [if_neg (by decide : ¬ (true = false)), if_pos hlen]

theorem perfStep_some_of_qual (minReq : Nat) (perf : PerfMap) (tt : TaskType)
    (m : AvailableModel) (b : String × ℚ) (h : Qualified minReq perf tt m) :
    perfStep minReq perf tt (some b) m =
      if meanFor perf tt m < b.2 then some (m.name, meanFor perf tt m)
      else some b := by
  obtain ⟨times, hl, hlen⟩ := h
  simp only [perfStep, isModelSuitable, hl, meanFor, Option.getD_some]
  rw [if_neg (by decide : ¬ (true = false)), if_pos hlen]

theorem perfFold_some_stays (minReq : Nat) (perf : PerfMap) (tt : TaskType)
    (models : List AvailableModel) (b : String × ℚ) :
    (models.foldl (perfStep minReq perf tt) (some b)).isSome = true := by
  induction models generalizing b with
  | nil => rfl
  | cons m ms ih =>
    by_cases hq : Qualified minReq perf tt m
    · rw [List.foldl_cons, perfStep_some_of_qual minReq perf tt m b hq]
      split
      · exact ih _
      · exact ih _
    · rw [List.foldl_cons, perfStep_of_not_qual minReq perf tt (some b) m hq]
      exact ih _

theorem perfFold_none_iff (minReq : Nat) (perf : PerfMap) (tt : TaskType)
    (models : List AvailableModel) :
    perfFold minReq perf tt models = none ↔
      ∀ m ∈ models, ¬ Qualified minReq perf tt m := by
  unfold perfFold
  induction models with
  | nil => simp
  | cons m ms ih =>
    by_cases hq : Qualified minReq perf tt m
    · rw [List.foldl_cons, perfStep_none_of_qual minReq perf tt m hq]
      constructor
      · intro h
        have := perfFold_some_stays minReq perf tt ms (m.name, meanFor perf tt m)
        rw [h] at this
        simp at this
      · intro h
        exact absurd hq (h m (by simp))
    · rw [List.foldl_cons, perfStep_of_not_qual minReq perf tt none m hq]
      rw [ih]
      constructor
      · intro h m2 hm2
        rcases List.mem_cons.mp hm2 with h2 | h2
        · rw [h2]; exact hq
        · exact h m2 h2
      · intro h m2 hm2
        exact h m2 (List.mem_cons_of_mem m hm2)

theorem perfFold_min (minReq : Nat) (perf : PerfMap) (tt : TaskType)
    (models : List AvailableModel) (acc : Option (String × ℚ)) (n : String)
    (a : ℚ) (h : models.foldl (perfStep minReq perf tt) acc = some (n, a)) :
    (∀ m ∈ models, Qualified minReq perf tt m → a ≤ meanFor perf tt m) ∧
    (∀ b, acc = some b → a ≤ b.2) := by
  induction models generalizing acc with
  | nil =>
    simp only [List.foldl_nil] at h
    refine ⟨by simp, fun b hb => ?_⟩
    rw [h] at hb
    injection hb with hb
    rw [← hb]
  | cons m ms ih =>
    rw [List.foldl_cons] at h
    obtain ⟨ih1, ih2⟩ := ih (perfStep minReq perf tt acc m) h
    constructor
    · intro m2 hm2 hq2
      rcases List.mem_cons.mp hm2 with h2 | h2
      · subst h2
        cases hacc : acc with
        | none =>
          rw [hacc, perfStep_none_of_qual minReq perf tt m2 hq2] at ih2
          exact ih2 _ rfl
        | some b =>
          rw [hacc, perfStep_some_of_qual minReq perf tt m2 b hq2] at ih2
          by_cases hlt : meanFor perf tt m2 < b.2
          · rw [if_pos hlt] at ih2
            exact ih2 _ rfl
          · rw [if_neg hlt] at ih2
            exact le_trans (ih2 b rfl) (not_lt.mp hlt)
      · exact ih1 m2 h2 hq2
    · intro b hb
      subst hb
      by_cases hq : Qualified minReq perf tt m
      · rw [perfStep_some_of_qual minReq perf tt m b hq] at ih2
        by_cases hlt : meanFor perf tt m < b.2
        · rw [if_pos hlt] at ih2
          exact le_trans (ih2 _ rfl) (le_of_lt hlt)
        · rw [if_neg hlt] at ih2
          exact ih2 b rfl
      · rw [perfStep_of_not_qual minReq perf tt (some b) m hq] at ih2
        exact ih2 b rfl

theorem perfFold_witness (minReq : Nat) (perf : PerfMap) (tt : TaskType)
    (models : List AvailableModel) (acc : Option (String × ℚ)) (n : String)
    (a : ℚ) (h : models.foldl (perfStep minReq perf tt) acc = some (n, a)) :
    acc = some (n, a) ∨
      ∃ m ∈ models, m.name = n ∧ Qualified minReq perf tt m ∧
        a = meanFor perf tt m := by
  induction models generalizing acc with
  | nil =>
    simp only [List.foldl_nil] at h
    exact Or.inl h
  | cons m ms ih =>
    rw [List.foldl_cons] at h
    rcases ih (perfStep minReq perf tt acc m) h with h2 | h2
    · by_cases hq : Qualified minReq perf tt m
      · cases hacc : acc with
        | none =>
          rw [hacc, perfStep_none_of_qual minReq perf tt m hq] at h2
          injection h2 with h2
          right
          exact ⟨m, by simp, congrArg Prod.fst h2, hq,
            (congrArg Prod.snd h2).symm⟩
        | some b =>
          rw [hacc, perfStep_some_of_qual minReq perf tt m b hq] at h2
          by_cases hlt : meanFor perf tt m < b.2
          · rw [if_pos hlt] at h2
            injection h2 with h2
            right
            exact ⟨m, by simp, congrArg Prod.fst h2, hq,
              (congrArg Prod.snd h2).symm⟩
          · rw [if_neg hlt] at h2
            exact Or.inl (hacc ▸ h2)
      · rw [perfStep_of_not_qual minReq perf tt acc m hq] at h2
        exact Or.inl h2
    · obtain ⟨m2, hm2, rest⟩ := h2
      exact Or.inr ⟨m2, List.mem_cons_of_mem m hm2, rest⟩

/-! ### Confidence-score lemma -/

theorem consensusRatio_le_one (results : List VerificationResult) :
    consensusRatio results ≤ 1 := by
  simp only [consensusRatio]
  split
  · rename_i hpos
    rw [div_le_one (by exact_mod_cast hpos)]
    exact_mod_cast List.length_filter_le _ _
  · norm_num

theorem consensusRatio_eq (results : List VerificationResult) (c n : Nat)
    (hc : (results.filter (fun v => v = some true)).length = c)
    (hn : results.length = n) (hpos : 0 < n) :
    consensusRatio results = (c : ℚ) / n := by
  simp only [consensusRatio]
  rw [hc, hn, if_pos hpos]

theorem c7_perfFold_eq :
    perfFold 5 c7Perf TaskType.data_analysis c7Models = some ("w2", 10) := by
  have hq1 : Qualified 5 c7Perf TaskType.data_analysis ⟨"w1", 0⟩ :=
    ⟨[some 1, some 1, some 1, some 1, some 100], rfl, by decide⟩
  have hq2 : Qualified 5 c7Perf TaskType.data_analysis ⟨"w2", 0⟩ :=
    ⟨[some 10, some 10, some 10, some 10, some 10], rfl, by decide⟩
  have hm1 : meanFor c7Perf TaskType.data_analysis ⟨"w1", 0⟩ = 104/5 := by
    show listMean (validTimes
      ((perfLookup c7Perf TaskType.data_analysis "w1").getD [])) = 104/5
    rw [show perfLookup c7Perf TaskType.data_analysis "w1" =
      some [some 1, some 1, some 1, some 1, some 100] from rfl]
    show listMean [1, 1, 1, 1, 100] = 104/5
    unfold listMean
    norm_num [List.sum_cons, List.sum_nil]
  have hm2 : meanFor c7Perf TaskType.data_analysis ⟨"w2", 0⟩ = 10 := by
    show listMean (validTimes
      ((perfLookup c7Perf TaskType.data_analysis "w2").getD [])) = 10
    rw [show perfLookup c7Perf TaskType.data_analysis "w2" =
      some [some 10, some 10, some 10, some 10, some 10] from rfl]
    show listMean [10, 10, 10, 10, 10] = 10
    unfold listMean
    norm_num [List.sum_cons, List.sum_nil]
  show List.foldl (perfStep 5 c7Perf TaskType.data_analysis) none
    [⟨"w1", 0⟩, ⟨"w2", 0⟩] = some ("w2", 10)
  rw [List.foldl_cons, List.foldl_cons, List.foldl_nil,
    perfStep_none_of_qual 5 c7Perf TaskType.data_analysis ⟨"w1", 0⟩ hq1,
    perfStep_some_of_qual 5 c7Perf TaskType.data_analysis ⟨"w2", 0⟩ _ hq2,
    hm1, hm2]
  rw [if_pos (by norm_num : (10 : ℚ) < ("w1", (104 : ℚ)/5).2)]

/-! ### Claims -/

/-- C1, counterexample: in a fully reachable run (submit with the
dataclass default `max_retries = 3`, then four assign/fail-with-retry
rounds) the task ends FAILED with `retry_count = 4 > max_retries = 3`,
so "retry_count ≤ max_retries at every observable point" is false. -/
theorem claim1_counterexample :
    taskObs c1Final "T" = some (TaskStatus.failed, 4, 3) ∧
    ¬ RetryBoundAll c1Final.tasks := by
  constructor
  · decide
  · unfold RetryBoundAll
    decide

/-- C1, amended: `retry_count ≤ max_retries` is preserved by every queue
operation for every task that is not FAILED; and the claim's scenario (a
`max_retries = 2` task failed with retry three consecutive times) is
re-queued exactly twice (QUEUED with retry_count 1 and 2) and ends FAILED
with `retry_count = 3 = max_retries + 1`, not 2. -/
theorem claim1_amended :
    (∀ s ops, RetryInv s → RetryInv (applyOps s ops)) ∧
    statusRetryObs c1Demo1 "T" = some (TaskStatus.queued, 1) ∧
    statusRetryObs c1Demo2 "T" = some (TaskStatus.queued, 2) ∧
    taskObs c1Demo3 "T" = some (TaskStatus.failed, 3, 2) := by
  refine ⟨fun s ops h => retryInv_applyOps s ops h, ?_, ?_, ?_⟩ <;> decide

/-- C1, witness: the preserved invariant evaluated on the scenario. -/
theorem claim1_witness :
    RetryInv c1Demo0 ∧
    RetryInv (applyOps c1Demo0 [QOp.getNext "m" none 1, QOp.fail "T" "e" true 2]) :=
  have h0 : RetryInv c1Demo0 := by unfold RetryInv RetryInvM; decide
  ⟨h0, claim1_amended.1 c1Demo0 _ h0⟩

/-- C2: `get_next_task` scans the heap's backing array in index order, so
with tasks A (CRITICAL, unsupported type), B (LOW), C (NORMAL) it returns
B (priority value 3) although C (priority value 2) is queued and eligible
— contradicting selection of the smallest priority value. -/
theorem claim2_bug :
    pickedPrioObs c2State "m" (some [TaskType.data_analysis]) 3 = some ("B", 3) ∧
    eligibleFor c2State.tasks "m" (some [TaskType.data_analysis]) "C" = true ∧
    taskPrioVal c2State "C" = some 2 := by
  decide

/-- C3, counterexample: the task re-queued at t=10 carries the
future-dated `created_at = 12`, yet `get_next_task` called at t=11
returns it — before the backoff delay has elapsed. -/
theorem claim3_counterexample :
    statusCreatedObs c3State "T" = some (TaskStatus.queued, 12) ∧
    pickedCreatedObs c3State "m" none 11 = some ("T", 12) := by
  decide

/-- C3, amended: `fail_task` re-queues a retried ASSIGNED/RUNNING task
with `created_at = failure time + min(60, 2^retry_count)`, but this delay
only influences heap ordering: the task selected by `get_next_task` is
independent of the current time, so a retried task can be picked up
before its delay has elapsed. -/
theorem claim3_amended :
    (∀ s tid err now t, lookupA s.tasks tid = some t →
      (t.status = TaskStatus.assigned ∨ t.status = TaskStatus.running) →
      t.retry_count + 1 ≤ t.max_retries →
      statusCreatedObs (failTask s tid err true now).2 tid =
        some (TaskStatus.queued, now + min 60 (2 ^ (t.retry_count + 1)))) ∧
    (∀ s mn sup now now',
      (getNextTask s mn sup now).1.map Task.id =
        (getNextTask s mn sup now').1.map Task.id) := by
  constructor
  · intro s tid err now t hl hst hrc
    simp only [failTask, hl]
    rw [if_pos ⟨by trivial, hrc, hst⟩]
    simp only [statusCreatedObs, lookupA_setA]
    simp
  · intro s mn sup now now'
    simp only [getNextTask]
    cases hp : getNextPick s mn sup with
    | none => rfl
    | some p =>
      obtain ⟨i, tid⟩ := p
      cases hl : lookupA s.tasks tid with
      | none => simp only [hl]
      | some t => simp only [hl, Option.map_some']

/-- C3, witness: the backoff stamping applied to the concrete run. -/
theorem claim3_witness :
    statusCreatedObs (failTask c3Assigned "T" "boom" true 10).2 "T" =
      some (TaskStatus.queued, 10 + min 60 (2 ^ (c3TaskA.retry_count + 1))) :=
  claim3_amended.1 c3Assigned "T" "boom" 10 c3TaskA (by decide) (by decide)
    (by decide)

/-- C4, counterexample: a COMPLETED (terminal) task is mutated by
`fail_task`: its status flips to FAILED and its retry counter is
incremented, contradicting terminal immutability. -/
theorem claim4_counterexample :
    statusRetryObs c4State "T" = some (TaskStatus.completed, 0) ∧
    statusRetryObs (failTask c4State "T" "late" true 5).2 "T" =
      some (TaskStatus.failed, 1) := by
  decide

/-- C4, amended: a terminal task is immutable under `complete_task` and
`cancel_task` (both return false and leave the whole queue state
unchanged), but `fail_task` on a terminal task records the error,
increments `retry_count`, and marks it FAILED with a fresh completion
timestamp. -/
theorem claim4_amended (s : QueueState) (tid : String) (t : Task)
    (r err : String) (retry : Bool) (now : Nat)
    (hl : lookupA s.tasks tid = some t)
    (hterm : t.status = TaskStatus.completed ∨ t.status = TaskStatus.failed ∨
      t.status = TaskStatus.cancelled) :
    completeTask s tid r now = (false, s) ∧
    cancelTask s tid now = (false, s) ∧
    statusRetryObs (failTask s tid err retry now).2 tid =
      some (TaskStatus.failed, t.retry_count + 1) := by
  have hne : ¬ (t.status = TaskStatus.assigned ∨ t.status = TaskStatus.running) := by
    rcases hterm with h | h | h <;> rw [h] <;> decide
  refine ⟨?_, ?_, ?_⟩
  · simp only [completeTask, hl]
    rw [if_neg hne]
  · simp only [cancelTask, hl]
    rw [if_pos hterm]
  · simp only [failTask, hl]
    rw [if_neg (fun hc => hne hc.2.2)]
    simp only [statusRetryObs, lookupA_setA]
    simp

/-- C4, witness: immutability under complete/cancel and the fail-task
mutation, evaluated on the concrete completed task. -/
theorem claim4_witness :
    completeTask c4State "T" "x" 9 = (false, c4State) ∧
    cancelTask c4State "T" 9 = (false, c4State) ∧
    statusRetryObs (failTask c4State "T" "late2" false 9).2 "T" =
      some (TaskStatus.failed, c4TaskC.retry_count + 1) :=
  claim4_amended c4State "T" c4TaskC "x" "late2" false 9 (by decide) (by decide)

/-- C5: after any allocate/deallocate sequence with non-negative sizes
the pool invariant holds, hence the live allocation sizes never sum past
the configured maximum; and an allocate request that would overrun the
accounted headroom returns no id and leaves the pool untouched. -/
theorem claim5_theorem :
    (∀ p ops, PoolInv p → NonnegSizes ops → PoolInv (applyPoolOps p ops)) ∧
    (∀ p, PoolInv p → liveSum p ≤ p.max_size_bytes) ∧
    (∀ p size owner now, p.max_size_bytes < p.total_allocated + size →
      MemoryPool.allocate p size owner now = (none, p)) := by
  refine ⟨fun p ops h hs => poolInv_applyPoolOps p ops h hs, ?_, ?_⟩
  · intro p h
    exact le_trans h.2.1 h.2.2
  · intro p size owner now h
    simp only [MemoryPool.allocate]
    rw [if_pos h]

/-- C5, witness: the invariant evaluated on a concrete call sequence and
a concrete over-budget request. -/
theorem claim5_witness :
    PoolInv (applyPoolOps c5Pool c5Ops) ∧
    MemoryPool.allocate c5Pool 101 "owner" 9 = (none, c5Pool) :=
  ⟨claim5_theorem.1 c5Pool c5Ops (by unfold PoolInv; decide)
      (by unfold NonnegSizes; decide),
   claim5_theorem.2.2 c5Pool 101 "owner" 9 (by decide)⟩

/-- C6: submission is rejected (Python raises `RuntimeError`, modelled as
`none`) exactly when the tracked-task count has reached
`max_queue_size`, leaving the state unchanged; otherwise the task is
stored QUEUED under the returned id; consequently the tracked count
never exceeds the maximum in any reachable state. -/
theorem claim6_theorem :
    (∀ maxSize ops, SizeInv (applyOps (initialQueue maxSize) ops)) ∧
    (∀ s id now tt prio pref tmo, s.max_queue_size ≤ s.tasks.length →
      submitTask s id now tt prio pref tmo = (none, s)) ∧
    (∀ s id now tt prio pref tmo, s.tasks.length < s.max_queue_size →
      (submitTask s id now tt prio pref tmo).1 = some id ∧
      statusRetryObs (submitTask s id now tt prio pref tmo).2 id =
        some (TaskStatus.queued, 0)) := by
  refine ⟨?_, ?_, ?_⟩
  · intro maxSize ops
    exact sizeInv_applyOps _ ops (by unfold SizeInv initialQueue; simp)
  · intro s id now tt prio pref tmo h
    simp only [submitTask]
    rw [if_pos h]
  · intro s id now tt prio pref tmo h
    have hni : ¬ s.max_queue_size ≤ s.tasks.length := by omega
    constructor
    · simp only [submitTask]
      rw [if_neg hni]
    · simp only [submitTask]
      rw [if_neg hni]
      simp only [statusRetryObs, lookupA_setA]
      simp

/-- C6, witness: rejection at capacity 1, acceptance at capacity 2, and
the size invariant on a run that submits past the limit. -/
theorem claim6_witness :
    submitTask c6Full "B" 5 TaskType.data_analysis TaskPriority.normal none 300 =
      (none, c6Full) ∧
    (submitTask c6Room "B" 5 TaskType.data_analysis TaskPriority.normal none 300).1 =
      some "B" ∧
    SizeInv (applyOps (initialQueue 1)
      [ QOp.submit "A" 0 TaskType.data_analysis TaskPriority.normal none 300
      , QOp.submit "B" 1 TaskType.data_analysis TaskPriority.normal none 300 ]) :=
  ⟨claim6_theorem.2.1 c6Full "B" 5 TaskType.data_analysis TaskPriority.normal
      none 300 (by decide),
   (claim6_theorem.2.2 c6Room "B" 5 TaskType.data_analysis TaskPriority.normal
      none 300 (by decide)).1,
   claim6_theorem.1 1 _⟩

/-- C7, counterexample: with five valid samples each, w1 has median 1 and
w2 median 10, so the claimed median rule picks w1; the code compares
`statistics.mean` and returns w2. -/
theorem claim7_counterexample :
    performanceBasedSelection 5 c7Perf c7Models TaskType.data_analysis =
      some { selected_model := "w2", confidence := 4/5, alternative_models := []
             estimated_wait_time := 0, estimated_processing_time := 10 } ∧
    specMedian (validTimes ((perfLookup c7Perf TaskType.data_analysis "w1").getD [])) = 1 ∧
    specMedian (validTimes ((perfLookup c7Perf TaskType.data_analysis "w2").getD [])) = 10 ∧
    ((1 : ℚ) < 10) := by
  refine ⟨by simp only [performanceBasedSelection, c7_perfFold_eq], ?_, ?_, by norm_num⟩
  · simp +decide only [specMedian, validTimes, perfLookup, c7Perf, sortQ,
      insertQ, List.filterMap, List.foldl, Option.getD_some]
  · simp +decide only [specMedian, validTimes, perfLookup, c7Perf, sortQ,
      insertQ, List.filterMap, List.foldl, Option.getD_some]

/-- C7, amended: the performance-based strategy returns the worker with
the lowest historical MEAN latency over its valid (non-inf) samples for
the exact task type, considering only workers with recorded history of
at least `min_requests_for_stats` valid samples; when no worker
qualifies it falls back to least-connections selection. -/
theorem claim7_amended (minReq : Nat) (perf : PerfMap)
    (models : List AvailableModel) (tt : TaskType) :
    (perfFold minReq perf tt models = none ↔
      ∀ m ∈ models, ¬ Qualified minReq perf tt m) ∧
    (perfFold minReq perf tt models = none →
      performanceBasedSelection minReq perf models tt =
        leastConnectionsSelection models tt) ∧
    (∀ n a, perfFold minReq perf tt models = some (n, a) →
      performanceBasedSelection minReq perf models tt =
        some { selected_model := n, confidence := 4/5, alternative_models := []
               estimated_wait_time := 0, estimated_processing_time := a } ∧
      (∃ m ∈ models, m.name = n ∧ Qualified minReq perf tt m ∧
        a = meanFor perf tt m) ∧
      (∀ m ∈ models, Qualified minReq perf tt m → a ≤ meanFor perf tt m)) := by
  refine ⟨perfFold_none_iff minReq perf tt models, ?_, ?_⟩
  · intro h
    simp only [performanceBasedSelection, h]
  · intro n a h
    refine ⟨by simp only [performanceBasedSelection, h], ?_, ?_⟩
    · rcases perfFold_witness minReq perf tt models none n a h with h2 | h2
      · exact absurd h2 (by simp)
      · exact h2
    · exact (perfFold_min minReq perf tt models none n a h).1

/-- C7, witness: mean-based selection on the concrete history and the
least-connections fallback with no history at all. -/
theorem claim7_witness :
    performanceBasedSelection 5 c7Perf c7Models TaskType.data_analysis =
      some { selected_model := "w2", confidence := 4/5, alternative_models := []
             estimated_wait_time := 0, estimated_processing_time := 10 } ∧
    performanceBasedSelection 5 c7NoHist c7Models TaskType.data_analysis =
      leastConnectionsSelection c7Models TaskType.data_analysis :=
  ⟨((claim7_amended 5 c7Perf c7Models TaskType.data_analysis).2.2 "w2" 10
      c7_perfFold_eq).1,
   (claim7_amended 5 c7NoHist c7Models TaskType.data_analysis).2.1 (by decide)⟩

/-- C8: for a completed analysis whose verification produced at least one
verifier result, with f the fraction of results indicating consensus,
the stored confidence is `0.7 + 0.3·f` when `f ≥ consensus_threshold`
and `max(0.1, 0.7·f)` otherwise; without verification it is the fixed
moderate constant 0.8. -/
theorem claim8_theorem (threshold : ℚ) (results : List VerificationResult)
    (h : results ≠ []) :
    (threshold ≤ consensusRatio results →
      calculateConfidenceScore threshold results =
        7/10 + 3/10 * consensusRatio results) ∧
    (consensusRatio results < threshold →
      calculateConfidenceScore threshold results =
        max (1/10) (7/10 * consensusRatio results)) ∧
    completedConfidence false true threshold results = 4/5 ∧
    completedConfidence true false threshold results = 4/5 := by
  have hr1 : consensusRatio results ≤ 1 := consensusRatio_le_one results
  refine ⟨?_, ?_, by simp [completedConfidence], by simp [completedConfidence]⟩
  · intro hth
    simp only [calculateConfidenceScore]
    rw [if_neg h, if_pos hth, min_eq_right (by linarith)]
    ring
  · intro hth
    simp only [calculateConfidenceScore]
    rw [if_neg h, if_neg (not_le.mpr hth),
      mul_comm (consensusRatio results) ((7 : ℚ)/10)]

/-- C8, witness: the two formula branches evaluated on concrete verifier
outcomes (f = 1/3 below a 0.7 threshold; f = 2/3 above a 0.5 threshold). -/
theorem claim8_witness :
    calculateConfidenceScore (7/10) [some true, none, some false] =
      max (1/10) (7/10 * consensusRatio [some true, none, some false]) ∧
    calculateConfidenceScore (1/2) [some true, some true, some false] =
      7/10 + 3/10 * consensusRatio [some true, some true, some false] :=
  ⟨(claim8_theorem (7/10) [some true, none, some false] (by decide)).2.1
      (by rw [consensusRatio_eq [some true, none, some false] 1 3
            (by decide) (by decide) (by decide)]
          norm_num),
   (claim8_theorem (1/2) [some true, some true, some false] (by decide)).1
      (by rw [consensusRatio_eq [some true, some true, some false] 2 3
            (by decide) (by decide) (by decide)]
          norm_num)⟩

/-- C9, counterexample: loading a known, unloaded model whose RAM demand
(12 GB) exceeds the available headroom (4 GB) fails the availability
check: the call returns false and the model goes to ERROR, but its error
counter stays 0 instead of being incremented as claimed. -/
theorem claim9_counterexample :
    (loadModel c9Models "m" false 0 4 true 7).1 = false ∧
    modelObs (loadModel c9Models "m" false 0 4 true 7).2 "m" =
      some (ModelStatus.error, 0) := by
  decide

/-- C9, amended: for a known model that is not already READY, the
resource-availability check gates READY (a successful load implies the
check passed); an availability-check failure sets ERROR and returns
failure with the error counter unchanged; a backend load failure sets
ERROR, returns failure, and increments the error counter. -/
theorem claim9_amended (models : List (String × ModelInstance))
    (model_name : String) (inst : ModelInstance) (gp : Bool) (ag ar : ℚ)
    (ok : Bool) (now : Nat)
    (hl : lookupA models model_name = some inst)
    (hst : inst.status ≠ ModelStatus.ready) :
    (checkResourceAvailability gp ag ar inst.config = false →
      loadModel models model_name gp ag ar ok now =
        (false, setA models model_name
          { inst with status := ModelStatus.error })) ∧
    (checkResourceAvailability gp ag ar inst.config = true →
      (inst.config.model_type = "ollama" ∨ inst.config.model_type = "vllm") →
      ok = false →
      loadModel models model_name gp ag ar ok now =
        (false, setA models model_name
          { inst with status := ModelStatus.error
                      error_count := inst.error_count + 1 })) ∧
    ((loadModel models model_name gp ag ar ok now).1 = true →
      checkResourceAvailability gp ag ar inst.config = true) := by
  refine ⟨?_, ?_, ?_⟩
  · intro hc
    simp only [loadModel, hl]
    rw [if_neg hst, if_pos hc]
  · intro hc hsup hok
    simp only [loadModel, hl]
    rw [if_neg hst, if_neg (by rw [hc]; decide),
      if_neg (fun hand => by rw [hok] at hand; exact Bool.noConfusion hand.2)]
  · intro htrue
    rcases Bool.eq_false_or_eq_true
        (checkResourceAvailability gp ag ar inst.config) with hc | hc
    · exact hc
    · simp only [loadModel, hl] at htrue
      rw [if_neg hst, if_pos hc] at htrue
      exact Bool.noConfusion htrue

/-- C9, witness: the availability-failure branch on the concrete model
table. -/
theorem claim9_witness :
    loadModel c9Models "m" false 0 4 true 7 =
      (false, setA c9Models "m" { c9Inst with status := ModelStatus.error }) :=
  (claim9_amended c9Models "m" c9Inst false 0 4 true 7 (by decide)
    (by decide)).1 (by decide)

/-- C10: `submit_analysis` forwards only the head of a non-empty
`preferred_models` list to the task queue; the tail has no effect on the
resulting queue state; an absent or empty list yields a task with no
preferred worker, and the stored task's preferred worker is exactly the
forwarded value. -/
theorem claim10_theorem (s : QueueState) (id : String) (now : Nat)
    (r : AnalysisRequest) (m : String) (tail tail' : List String) :
    (submitAnalysis s id now { r with preferred_models := some (m :: tail) } =
      submitAnalysis s id now { r with preferred_models := some (m :: tail') }) ∧
    requestPreferredModel (some (m :: tail)) = some m ∧
    requestPreferredModel none = none ∧
    requestPreferredModel (some ([] : List String)) = none ∧
    (s.tasks.length < s.max_queue_size →
      (lookupA (submitAnalysis s id now r).2.tasks id).map Task.preferred_model =
        some (requestPreferredModel r.preferred_models)) := by
  refine ⟨rfl, rfl, rfl, rfl, ?_⟩
  intro h
  have hni : ¬ s.max_queue_size ≤ s.tasks.length := by omega
  simp only [submitAnalysis, submitTask]
  rw [if_neg hni]
  simp only [lookupA_setA]
  simp

/-- C10, witness: the stored preferred worker for a concrete request with
a three-element preference list. -/
theorem claim10_witness :
    (lookupA (submitAnalysis (initialQueue 10) "A" 0 c10Request).2.tasks "A").map
      Task.preferred_model =
      some (requestPreferredModel c10Request.preferred_models) :=
  (claim10_theorem (initialQueue 10) "A" 0 c10Request "w1" [] []).2.2.2.2
    (by decide)

end EfdataSpec
